/-
Verification of KDDockWidgets core logic (side-bar placement heuristic,
resize handler, overlay orchestration, serialization round-trip, guest
widget minimum size) against a shallow Lean embedding of the C++ sources:
  src/private/widgets/SideBarWidget.cpp   (MainWindowBase part)
  src/private/WidgetResizeHandler.cpp
  src/private/multisplitter/GuestWidget.cpp
-/
import Mathlib

namespace KDDW

/-! ## Side-bar locations and layout border adjacency -/

/-- `KDDockWidgets::SideBarLocation`: one of the four side bars, or `None`. -/
inductive SideBarLocation where
  | None
  | North
  | East
  | West
  | South
deriving DecidableEq, Repr, Fintype

/-- A single layout border (one bit of `Layouting::Item::LayoutBorderLocation`). -/
inductive BorderLoc where
  | north
  | east
  | west
  | south
deriving DecidableEq, Repr

/-- `Layouting::Item::LayoutBorderLocations`: the bitset over
{North, East, West, South} describing which outer borders of the layout a
given item touches. Embedded as one `Bool` per border. -/
structure LayoutBorders where
  north : Bool
  east : Bool
  west : Bool
  south : Bool
deriving DecidableEq, Repr

/-- `LayoutBorderLocation_All`. -/
def LayoutBorders.all : LayoutBorders := ⟨true, true, true, true⟩

/-- `LayoutBorderLocation_None`. -/
def LayoutBorders.noneB : LayoutBorders := ⟨false, false, false, false⟩

/-- `LayoutBorderLocation_Verticals` (East | West). -/
def LayoutBorders.verticals : LayoutBorders := ⟨false, true, true, false⟩

/-- `LayoutBorderLocation_Horizontals` (North | South). -/
def LayoutBorders.horizontals : LayoutBorders := ⟨true, false, false, true⟩

/-- The single-bit mask for one border. -/
def LayoutBorders.single : BorderLoc → LayoutBorders
  | .north => ⟨true, false, false, false⟩
  | .east => ⟨false, true, false, false⟩
  | .west => ⟨false, false, true, false⟩
  | .south => ⟨false, false, false, true⟩

/-- `LayoutBorderLocation_All & ~borderLoc`: all four borders minus one. -/
def LayoutBorders.allExcept : BorderLoc → LayoutBorders
  | .north => ⟨false, true, true, true⟩
  | .east => ⟨true, false, true, true⟩
  | .west => ⟨true, true, false, true⟩
  | .south => ⟨true, true, true, false⟩

/-- Bitwise AND of two border sets. -/
def LayoutBorders.inter (a b : LayoutBorders) : LayoutBorders :=
  ⟨a.north && b.north, a.east && b.east, a.west && b.west, a.south && b.south⟩

/-- The union (bitwise OR) of two border sets. -/
def LayoutBorders.union (a b : LayoutBorders) : LayoutBorders :=
  ⟨a.north || b.north, a.east || b.east, a.west || b.west, a.south || b.south⟩

/-- `opposedSideBarLocationForBorder` (SideBarWidget.cpp): the side bar on
the opposite side of a given single border. -/
def opposedSideBarLocationForBorder : BorderLoc → SideBarLocation
  | .north => SideBarLocation.South
  | .east => SideBarLocation.West
  | .west => SideBarLocation.East
  | .south => SideBarLocation.North

/-- `sideBarLocationForBorder` (SideBarWidget.cpp): the side bar on the same
side when the mask is exactly one border, `None` otherwise. -/
def sideBarLocationForBorder (loc : LayoutBorders) : SideBarLocation :=
  if loc = LayoutBorders.single .north then SideBarLocation.North
  else if loc = LayoutBorders.single .east then SideBarLocation.East
  else if loc = LayoutBorders.single .west then SideBarLocation.West
  else if loc = LayoutBorders.single .south then SideBarLocation.South
  else SideBarLocation.None

/-! ## `MainWindowBase::Private::preferredSideBar`

The aspect ratio `dw->width() / (dw->height() * 1.0)` is embedded as a
rational number; the code only compares it against `1.0`. -/

/-- The border/aspect-ratio decision core of
`MainWindowBase::Private::preferredSideBar`, reached once the layout item
exists, translated branch by branch. -/
def preferredSideBarOfBorders (borders : LayoutBorders) (aspectRatio : ℚ) :
    SideBarLocation :=
  -- 1. It's touching all borders
  if borders = LayoutBorders.all then
    (if aspectRatio > 1 then SideBarLocation.South else SideBarLocation.East)
  -- 2. It's touching 3 borders (loop over North, East, West, South)
  else if borders = LayoutBorders.allExcept .north then
    opposedSideBarLocationForBorder .north
  else if borders = LayoutBorders.allExcept .east then
    opposedSideBarLocationForBorder .east
  else if borders = LayoutBorders.allExcept .west then
    opposedSideBarLocationForBorder .west
  else if borders = LayoutBorders.allExcept .south then
    opposedSideBarLocationForBorder .south
  -- 3. It's touching left and right borders
  else if borders.inter LayoutBorders.verticals = LayoutBorders.verticals then
    SideBarLocation.South
  -- 4. It's touching top and bottom borders
  else if borders.inter LayoutBorders.horizontals = LayoutBorders.horizontals then
    SideBarLocation.East
  -- 5. It's in a corner
  else if borders = (LayoutBorders.single .west).union (LayoutBorders.single .south) then
    (if aspectRatio > 1 then SideBarLocation.South else SideBarLocation.West)
  else if borders = (LayoutBorders.single .east).union (LayoutBorders.single .south) then
    (if aspectRatio > 1 then SideBarLocation.South else SideBarLocation.East)
  else if borders = (LayoutBorders.single .west).union (LayoutBorders.single .north) then
    (if aspectRatio > 1 then SideBarLocation.North else SideBarLocation.West)
  else if borders = (LayoutBorders.single .east).union (LayoutBorders.single .north) then
    (if aspectRatio > 1 then SideBarLocation.North else SideBarLocation.East)
  else
    -- 6. It's only touching 1 border
    match sideBarLocationForBorder borders with
    | SideBarLocation.None =>
        -- 7. It's not touching any border, use aspect ratio.
        (if aspectRatio > 1 then SideBarLocation.South else SideBarLocation.West)
    | loc => loc

/-- `MainWindowBase::Private::preferredSideBar` including its guard: when the
multisplitter has no item for the dock widget's frame (`item = none`), it
warns and returns `None`. The `Bool` records whether the warning was issued. -/
def preferredSideBar (item : Option LayoutBorders) (aspectRatio : ℚ) :
    SideBarLocation × Bool :=
  match item with
  | none => (SideBarLocation.None, true)
  | some borders => (preferredSideBarOfBorders borders aspectRatio, false)

/-! ## Spec-side rule table (§4.3), written from the spec's wording,
to be compared with the code-side `preferredSideBarOfBorders`. -/

/-- The number of borders touched. -/
def LayoutBorders.count (b : LayoutBorders) : ℕ :=
  (cond b.north 1 0) + (cond b.east 1 0) + (cond b.west 1 0) + (cond b.south 1 0)

/-- The §4.3 rule table written from the spec's words: (1) all 4 borders;
(2) exactly 3 borders, bar opposite the missing edge; (3) East+West only;
(4) North+South only; (5) corner pairs, aspect ratio picks the
horizontal-edge or vertical-edge bar; (6) exactly one border; (7) none. -/
def specPreferredLocation (b : LayoutBorders) (aspectRatio : ℚ) :
    SideBarLocation :=
  if b.count = 4 then
    (if aspectRatio > 1 then SideBarLocation.South else SideBarLocation.East)
  else if b.count = 3 then
    -- the side bar opposite the missing edge
    (if !b.north then SideBarLocation.South
     else if !b.east then SideBarLocation.West
     else if !b.west then SideBarLocation.East
     else SideBarLocation.North)
  else if b = LayoutBorders.verticals then SideBarLocation.South
  else if b = LayoutBorders.horizontals then SideBarLocation.East
  else if b.count = 2 then
    -- a corner pair: one of {North, South} and one of {East, West}
    (if aspectRatio > 1 then
       (if b.south then SideBarLocation.South else SideBarLocation.North)
     else
       (if b.west then SideBarLocation.West else SideBarLocation.East))
  else if b.count = 1 then
    (if b.north then SideBarLocation.North
     else if b.east then SideBarLocation.East
     else if b.west then SideBarLocation.West
     else SideBarLocation.South)
  else
    (if aspectRatio > 1 then SideBarLocation.South else SideBarLocation.West)

/-! ## Resize handler (WidgetResizeHandler.cpp)

Geometry uses Qt's `QRect` convention: the rect stores its corner
coordinates `x1 ≤ x2`, `y1 ≤ y2` and `width = x2 - x1 + 1`. -/

/-- `widgetResizeHandlerMargin` (4 pixels). -/
def widgetResizeHandlerMargin : ℤ := 4

/-- `CursorPosition` bit flags (Undefined = 0; corners are the OR of their
two edges, as built by `cursorPosition`'s `|=` accumulation). -/
def CursorPosition_Undefined : ℕ := 0

def CursorPosition_Left : ℕ := 1

def CursorPosition_Right : ℕ := 2

def CursorPosition_Top : ℕ := 4

def CursorPosition_Bottom : ℕ := 8

def CursorPosition_TopLeft : ℕ := CursorPosition_Top ||| CursorPosition_Left

def CursorPosition_TopRight : ℕ := CursorPosition_Top ||| CursorPosition_Right

def CursorPosition_BottomLeft : ℕ := CursorPosition_Bottom ||| CursorPosition_Left

def CursorPosition_BottomRight : ℕ := CursorPosition_Bottom ||| CursorPosition_Right

/-- Qt `QRect`: corner-stored rectangle. -/
structure QRect where
  x1 : ℤ
  y1 : ℤ
  x2 : ℤ
  y2 : ℤ
deriving DecidableEq, Repr

def QRect.left (r : QRect) : ℤ := r.x1

def QRect.right (r : QRect) : ℤ := r.x2

def QRect.top (r : QRect) : ℤ := r.y1

def QRect.bottom (r : QRect) : ℤ := r.y2

def QRect.width (r : QRect) : ℤ := r.x2 - r.x1 + 1

def QRect.height (r : QRect) : ℤ := r.y2 - r.y1 + 1

/-- `QRect::setLeft`: moves the left edge, keeping the right edge. -/
def QRect.setLeft (r : QRect) (x : ℤ) : QRect := { r with x1 := x }

/-- `QRect::setRight`: moves the right edge, keeping the left edge. -/
def QRect.setRight (r : QRect) (x : ℤ) : QRect := { r with x2 := x }

/-- `QRect::setTop`: moves the top edge, keeping the bottom edge. -/
def QRect.setTop (r : QRect) (y : ℤ) : QRect := { r with y1 := y }

/-- `QRect::setBottom`: moves the bottom edge, keeping the top edge. -/
def QRect.setBottom (r : QRect) (y : ℤ) : QRect := { r with y2 := y }

/-- Qt `qBound(min, val, max) = qMax(min, qMin(max, val))`. -/
def qBound (lo v hi : ℤ) : ℤ := max lo (min hi v)

/-- `WidgetResizeHandler::cursorPosition` after `mapFromGlobal`: classify a
local point `(x, y)` against a `w × h` target, accumulating edge bits with
`|=` exactly as the source does. -/
def cursorPosition (x y w h : ℤ) : ℕ :=
  let margin := widgetResizeHandlerMargin
  let result := CursorPosition_Undefined
  let result :=
    if |x| ≤ margin then result ||| CursorPosition_Left
    else if |x - (w - margin)| ≤ margin then result ||| CursorPosition_Right
    else result
  let result :=
    if |y| ≤ margin then result ||| CursorPosition_Top
    else if |y - (h - margin)| ≤ margin then result ||| CursorPosition_Bottom
    else result
  result

/-- The horizontal half of the classification on its own (left margin,
else right margin, else no bit). -/
def horizHit (x w : ℤ) : ℕ :=
  if |x| ≤ widgetResizeHandlerMargin then CursorPosition_Left
  else if |x - (w - widgetResizeHandlerMargin)| ≤ widgetResizeHandlerMargin then
    CursorPosition_Right
  else CursorPosition_Undefined

/-- The vertical half of the classification on its own (top margin,
else bottom margin, else no bit). -/
def vertHit (y h : ℤ) : ℕ :=
  if |y| ≤ widgetResizeHandlerMargin then CursorPosition_Top
  else if |y - (h - widgetResizeHandlerMargin)| ≤ widgetResizeHandlerMargin then
    CursorPosition_Bottom
  else CursorPosition_Undefined

/-- The 9 possible classification results: 4 edges, 4 corners, Undefined. -/
def validCursorPositions : List ℕ :=
  [CursorPosition_Undefined,
   CursorPosition_Left, CursorPosition_Right,
   CursorPosition_Top, CursorPosition_Bottom,
   CursorPosition_TopLeft, CursorPosition_TopRight,
   CursorPosition_BottomLeft, CursorPosition_BottomRight]

/-- The resize target's observable state (`mTarget`): geometry, maximized
flag and the Qt size constraints. -/
structure TargetState where
  geometry : QRect
  maximized : Bool
  minimumWidth : ℤ
  maximumWidth : ℤ
  minimumHeight : ℤ
  maximumHeight : ℤ
deriving DecidableEq, Repr

def TargetState.width (t : TargetState) : ℤ := t.geometry.width

def TargetState.height (t : TargetState) : ℤ := t.geometry.height

/-- `QWidget::mapFromGlobal` for a top-level target: global position minus
the window origin (toolkit-supplied coordinate mapping). -/
def mapFromGlobal (geo : QRect) (g : ℤ × ℤ) : ℤ × ℤ :=
  (g.1 - geo.x1, g.2 - geo.y1)

/-- `WidgetResizeHandler::cursorPosition(QPoint globalPos)`: map the global
point into target coordinates, then classify. -/
def cursorPositionOfTarget (t : TargetState) (globalPos : ℤ × ℤ) : ℕ :=
  let pos := mapFromGlobal t.geometry globalPos
  cursorPosition pos.1 pos.2 t.width t.height

/-- The geometry update of `WidgetResizeHandler::mouseMoveEvent` during an
active resize: a width pass (left-family / right-family of the pinned
cursor position) followed by a height pass (top-family / bottom-family),
each computing the pointer delta, `qBound`-clamping the new dimension, and
applying only the net clamped delta to the dragged edge. -/
def resizeGeometry (cursorPos : ℕ) (old : QRect) (globalPos : ℤ × ℤ)
    (minWidth maxWidth minHeight maxHeight : ℤ) : QRect :=
  let newGeometry := old
  let newGeometry :=
    if cursorPos = CursorPosition_TopLeft ∨ cursorPos = CursorPosition_Left ∨
        cursorPos = CursorPosition_BottomLeft then
      let deltaWidth := old.left - globalPos.1
      let newWidth := qBound minWidth (old.width + deltaWidth) maxWidth
      let deltaWidth := newWidth - old.width
      if deltaWidth ≠ 0 then newGeometry.setLeft (newGeometry.left - deltaWidth)
      else newGeometry
    else if cursorPos = CursorPosition_TopRight ∨ cursorPos = CursorPosition_Right ∨
        cursorPos = CursorPosition_BottomRight then
      let deltaWidth := globalPos.1 - newGeometry.right
      let newWidth := qBound minWidth (old.width + deltaWidth) maxWidth
      let deltaWidth := newWidth - old.width
      if deltaWidth ≠ 0 then newGeometry.setRight (old.right + deltaWidth)
      else newGeometry
    else newGeometry
  let newGeometry :=
    if cursorPos = CursorPosition_TopLeft ∨ cursorPos = CursorPosition_Top ∨
        cursorPos = CursorPosition_TopRight then
      let deltaHeight := old.top - globalPos.2
      let newHeight := qBound minHeight (old.height + deltaHeight) maxHeight
      let deltaHeight := newHeight - old.height
      if deltaHeight ≠ 0 then newGeometry.setTop (newGeometry.top - deltaHeight)
      else newGeometry
    else if cursorPos = CursorPosition_BottomLeft ∨ cursorPos = CursorPosition_Bottom ∨
        cursorPos = CursorPosition_BottomRight then
      let deltaHeight := globalPos.2 - newGeometry.bottom
      let newHeight := qBound minHeight (old.height + deltaHeight) maxHeight
      let deltaHeight := newHeight - old.height
      if deltaHeight ≠ 0 then newGeometry.setBottom (old.bottom + deltaHeight)
      else newGeometry
    else newGeometry
  newGeometry

/-- The handler's mutable members: `mResizeWidget`, `mCursorPos`,
`mNewPosition`. -/
structure HandlerState where
  mResizeWidget : Bool
  mCursorPos : ℕ
  mNewPosition : ℤ × ℤ
deriving DecidableEq, Repr

/-- `WidgetResizeHandler::mouseMoveEvent`: when no resize is active, only
the cursor shape is updated and the event is consumed iff the position
classifies as a resize zone; during a resize, the clamped geometry update
is applied to the target. Returns (handler, target, consumed). -/
def mouseMoveEventModel (hs : HandlerState) (t : TargetState)
    (globalPos : ℤ × ℤ) : HandlerState × TargetState × Bool :=
  if !hs.mResizeWidget then
    let pos := cursorPositionOfTarget t globalPos
    -- updateCursor(pos): cursor-shape side effect only
    (hs, t, pos != CursorPosition_Undefined)
  else
    let newGeometry := resizeGeometry hs.mCursorPos t.geometry globalPos
      t.minimumWidth t.maximumWidth t.minimumHeight t.maximumHeight
    -- setGeometry is called only when the rect changed; either way the
    -- target ends with `newGeometry`
    (hs, { t with geometry := newGeometry }, true)

inductive MouseEventKind where
  | press
  | move
  | release
deriving DecidableEq, Repr

/-- One mouse event as seen by `eventFilter`. -/
structure MouseEvent where
  kind : MouseEventKind
  globalPos : ℤ × ℤ
  /-- `button() == Qt::LeftButton` (press/release). -/
  buttonIsLeft : Bool
  /-- `buttons() & Qt::LeftButton` (move). -/
  buttonsHasLeft : Bool
deriving DecidableEq, Repr

/-- The press handler's containment test:
`mTarget->rect().marginsAdded(QMargins(m, m, m, m)).contains(point)` where
`rect()` is the local rect `(0, 0, width-1, height-1)`. -/
def widgetRectContains (t : TargetState) (p : ℤ × ℤ) : Bool :=
  let m := widgetResizeHandlerMargin
  decide (-m ≤ p.1 ∧ p.1 ≤ t.width - 1 + m ∧ -m ≤ p.2 ∧ p.2 ≤ t.height - 1 + m)

/-- The mouse-event switch of `WidgetResizeHandler::eventFilter` (the
earlier guards — disabled handlers, non-widget object, non-top-level
target — return `false` without touching any state and are elided).
`objectIsTarget` is the `o == mTarget` test used in the move case.
Returns (handler, target, consumed). -/
def eventFilter (hs : HandlerState) (t : TargetState) (objectIsTarget : Bool)
    (e : MouseEvent) : HandlerState × TargetState × Bool :=
  match e.kind with
  | .press =>
    if t.maximized then (hs, t, false)
    else
      let cursorPos := cursorPositionOfTarget t e.globalPos
      if cursorPos = CursorPosition_Undefined then (hs, t, false)
      else
        let cursorPoint := mapFromGlobal t.geometry e.globalPos
        if !widgetRectContains t cursorPoint then (hs, t, false)
        else
          let hs := if e.buttonIsLeft then { hs with mResizeWidget := true } else hs
          ({ hs with mNewPosition := e.globalPos, mCursorPos := cursorPos }, t, true)
  | .release =>
    if t.maximized then (hs, t, false)
    else if e.buttonIsLeft then
      ({ hs with mResizeWidget := false }, t, true)
    else (hs, t, false)
  | .move =>
    if t.maximized then (hs, t, false)
    else
      let hs := { hs with mResizeWidget := hs.mResizeWidget && e.buttonsHasLeft }
      let state := hs.mResizeWidget
      let hs := { hs with mResizeWidget := objectIsTarget && hs.mResizeWidget }
      let r := mouseMoveEventModel hs t e.globalPos
      ({ r.1 with mResizeWidget := state }, r.2.1, r.2.2)

/-! ## Overlay / sidebar orchestration (MainWindowBase in SideBarWidget.cpp)

The four sidebars hold ordered sequences (SideBar itself lives outside
src/; modelled from the spec: a sidebar is an ordered list of panels,
`addDockWidget` appends, `removeDockWidget` deletes the entry,
`containsDockWidget` is membership, `clear` empties, `serialize` lists the
panel names in order). -/

/-- The four per-location sidebar slots of a main window. -/
structure SideBars (α : Type) where
  north : List α
  east : List α
  west : List α
  south : List α
deriving DecidableEq, Repr

/-- `MainWindowBase::sideBar(loc)`'s contents; there is no sidebar for
`SideBarLocation::None` (the lookup yields nullptr), rendered as `[]`. -/
def SideBars.get {α : Type} (sb : SideBars α) : SideBarLocation → List α
  | .North => sb.north
  | .East => sb.east
  | .West => sb.west
  | .South => sb.south
  | .None => []

/-- Replace the list stored at one of the four locations (`None`: no-op,
matching the null sidebar). -/
def SideBars.set {α : Type} (sb : SideBars α) : SideBarLocation → List α → SideBars α
  | .North, v => { sb with north := v }
  | .East, v => { sb with east := v }
  | .West, v => { sb with west := v }
  | .South, v => { sb with south := v }
  | .None, _ => sb

/-- A main window's overlay-relevant state: sidebar contents (dock widgets
by identity), the single `m_overlayedDockWidget` slot, and the number of
transient overlay frames currently alive (`overlayOnSideBar` creates one,
`clearSideBarOverlay` deletes it). -/
structure OverlayMWState where
  sidebars : SideBars ℕ
  overlayed : Option ℕ
  liveOverlayFrames : ℕ
deriving DecidableEq, Repr

/-- `MainWindowBase::sideBarForDockWidget`: the first sidebar (North,
South, East, West order) containing the widget. -/
def sideBarForDockWidget (s : OverlayMWState) (dw : ℕ) : Option SideBarLocation :=
  if dw ∈ s.sidebars.north then some SideBarLocation.North
  else if dw ∈ s.sidebars.south then some SideBarLocation.South
  else if dw ∈ s.sidebars.east then some SideBarLocation.East
  else if dw ∈ s.sidebars.west then some SideBarLocation.West
  else none

/-- `MainWindowBase::clearSideBarOverlay`: when a widget is overlayed,
detach it, reset the slot and delete the transient frame. -/
def clearSideBarOverlay (s : OverlayMWState) : OverlayMWState :=
  match s.overlayed with
  | none => s
  | some _ =>
    { s with overlayed := none, liveOverlayFrames := s.liveOverlayFrames - 1 }

/-- `MainWindowBase::overlayOnSideBar`: requires the widget to be in a
sidebar (else warn and no-op); a widget already overlayed is a no-op;
otherwise any existing overlay is cleared first, then a transient frame is
created and the widget becomes the overlayed one. -/
def overlayOnSideBar (s : OverlayMWState) (dw : ℕ) : OverlayMWState :=
  match sideBarForDockWidget s dw with
  | none => s
  | some _ =>
    if s.overlayed = some dw then s
    else
      let s1 := clearSideBarOverlay s
      { s1 with overlayed := some dw,
                liveOverlayFrames := s1.liveOverlayFrames + 1 }

/-- `MainWindowBase::toggleOverlayOnSideBar`: clear (only one overlay at a
time), then overlay unless this widget was the overlayed one. -/
def toggleOverlayOnSideBar (s : OverlayMWState) (dw : ℕ) : OverlayMWState :=
  let s1 := clearSideBarOverlay s
  if s.overlayed = some dw then s1 else overlayOnSideBar s1 dw

/-- `MainWindowBase::restoreFromSideBar`: un-overlay first if this widget
is overlayed, then remove it from its sidebar and re-dock it (docking is
outside this state). -/
def restoreFromSideBar (s : OverlayMWState) (dw : ℕ) : OverlayMWState :=
  let s1 := if s.overlayed = some dw then clearSideBarOverlay s else s
  match sideBarForDockWidget s1 dw with
  | none => s1
  | some loc =>
    { s1 with sidebars := s1.sidebars.set loc ((s1.sidebars.get loc).erase dw) }

/-- One call from claim C3's operation set. -/
inductive OverlayOp where
  | overlay (dw : ℕ)
  | toggle (dw : ℕ)
  | clear
  | restore (dw : ℕ)
deriving DecidableEq, Repr

def applyOverlayOp (s : OverlayMWState) : OverlayOp → OverlayMWState
  | .overlay dw => overlayOnSideBar s dw
  | .toggle dw => toggleOverlayOnSideBar s dw
  | .clear => clearSideBarOverlay s
  | .restore dw => restoreFromSideBar s dw

def applyOverlayOps (s : OverlayMWState) (ops : List OverlayOp) : OverlayMWState :=
  ops.foldl applyOverlayOp s

/-- The single-overlay invariant: at most one transient frame alive, and
one is alive exactly when some panel is overlayed. -/
def OverlayInv (s : OverlayMWState) : Prop :=
  s.liveOverlayFrames ≤ 1 ∧ (s.overlayed.isSome ↔ s.liveOverlayFrames = 1)

instance (s : OverlayMWState) : Decidable (OverlayInv s) := by
  unfold OverlayInv
  infer_instance

/-! ## Serialization (MainWindowBase::serialize / deserialize) -/

/-- `LayoutSaver::MainWindow`: the persisted snapshot record. The
multisplitter layout is opaque here (a token); the sidebar map is an
association list, absent keys reading as empty. -/
structure SavedMainWindow where
  options : ℕ
  geometry : QRect
  isVisible : Bool
  uniqueName : String
  screenIndex : ℤ
  screenSize : ℤ × ℤ
  multiSplitterLayout : ℕ
  affinities : List String
  dockWidgetsPerSideBar : List (SideBarLocation × List String)
deriving DecidableEq, Repr

/-- The live main-window state relevant to serialize/deserialize; sidebars
hold panels by unique name. -/
structure MainWindowState where
  options : ℕ
  geometry : QRect
  isVisible : Bool
  uniqueName : String
  screenIndex : ℤ
  screenSize : ℤ × ℤ
  affinities : List String
  layout : ℕ
  sidebars : SideBars String
deriving DecidableEq, Repr

/-- Modelled from the spec: `dropArea()->serialize()` captures the full
item-tree layout (MultiSplitter lives outside src/); the tree is an opaque
token of the state. -/
def dropAreaSerialize (s : MainWindowState) : ℕ := s.layout

/-- Modelled from the spec: `dropArea()->deserialize(layout)` "restores the
tree" (MultiSplitter lives outside src/): the saved tree becomes the live
tree, successfully. -/
def dropAreaDeserialize (saved : ℕ) : ℕ × Bool := (saved, true)

/-- `QMap::value(loc)` on the saved sidebar map: the stored list, or `[]`
when the key is absent. -/
def mapValue (m : List (SideBarLocation × List String)) (loc : SideBarLocation) :
    List String :=
  match m with
  | [] => []
  | p :: rest => if p.1 = loc then p.2 else mapValue rest loc

/-- `MainWindowBase::serialize`: capture options, window geometry,
visibility, unique name, screen index/size, the layout, the affinities, and
each non-empty sidebar's ordered panel-name list (North, East, West, South
iteration order). -/
def serialize (s : MainWindowState) : SavedMainWindow :=
  { options := s.options
    geometry := s.geometry
    isVisible := s.isVisible
    uniqueName := s.uniqueName
    screenIndex := s.screenIndex
    screenSize := s.screenSize
    multiSplitterLayout := dropAreaSerialize s
    affinities := s.affinities
    dockWidgetsPerSideBar :=
      [SideBarLocation.North, SideBarLocation.East, SideBarLocation.West,
       SideBarLocation.South].filterMap fun loc =>
        if s.sidebars.get loc ≠ [] then some (loc, s.sidebars.get loc) else none }

/-- `MainWindowBase::Private::clearSideBars`: empty all four sidebars. -/
def clearSideBars (_sb : SideBars String) : SideBars String :=
  { north := [], east := [], west := [], south := [] }

/-- `MainWindowBase::deserialize`: refuse (report, abort, no state change)
when the stored options differ from the live ones; otherwise overwrite the
affinities (with a warning) if they changed, restore the layout tree, clear
all sidebars and repopulate them in saved order (North, East, West, South),
skipping — with a warning — names the registry does not know
(`DockRegistry::dockByName`). Returns the new state and the success flag. -/
def deserialize (registry : List String) (mw : SavedMainWindow)
    (s : MainWindowState) : MainWindowState × Bool :=
  if mw.options ≠ s.options then (s, false)
  else
    let s :=
      if s.affinities ≠ mw.affinities then { s with affinities := mw.affinities }
      else s
    let restored := dropAreaDeserialize mw.multiSplitterLayout
    let s := { s with layout := restored.1 }
    let success := restored.2
    let s := { s with sidebars := clearSideBars s.sidebars }
    let s :=
      [SideBarLocation.North, SideBarLocation.East, SideBarLocation.West,
       SideBarLocation.South].foldl
        (fun acc loc =>
          (mapValue mw.dockWidgetsPerSideBar loc).foldl
            (fun acc2 nm =>
              if nm ∈ registry then
                { acc2 with sidebars :=
                    acc2.sidebars.set loc (acc2.sidebars.get loc ++ [nm]) }
              else acc2)
            acc)
        s
    (s, success)

/-! ## GuestWidget minimum size (GuestWidget.cpp) -/

/-- Qt `QSize`. -/
structure QSizeT where
  w : ℤ
  h : ℤ
deriving DecidableEq, Repr

/-- `QSize::expandedTo`: componentwise maximum. -/
def QSizeT.expandedTo (a b : QSizeT) : QSizeT := ⟨max a.w b.w, max a.h b.h⟩

/-- The widget size data consulted by `GuestWidget::widgetMinSize`. -/
structure WidgetSizeInfo where
  minimumWidth : ℤ
  minimumHeight : ℤ
  minimumSizeHintWidth : ℤ
  minimumSizeHintHeight : ℤ
deriving DecidableEq, Repr

/-- Modelled from the spec: `Layouting::Item::hardcodedMinimumSize`, the
hard floor for item sizes, is defined in Item.cpp which is not under src/;
it is the positive constant 80×90 of the multisplitter item model. -/
def hardcodedMinimumSize : QSizeT := ⟨80, 90⟩

/-- `GuestWidget::widgetMinSize`: per axis, the explicit minimum dimension
when strictly positive, else the minimum size hint; the pair is then
expanded to `Item::hardcodedMinimumSize`. -/
def widgetMinSize (wd : WidgetSizeInfo) : QSizeT :=
  let minW :=
    if wd.minimumWidth > 0 then wd.minimumWidth else wd.minimumSizeHintWidth
  let minH :=
    if wd.minimumHeight > 0 then wd.minimumHeight else wd.minimumSizeHintHeight
  QSizeT.expandedTo ⟨minW, minH⟩ hardcodedMinimumSize

/-- `GuestWidget::minSize`: `widgetMinSize(asWidget())`. -/
def GuestWidget.minSize (wd : WidgetSizeInfo) : QSizeT := widgetMinSize wd

end KDDW

namespace KDDW

/-- C1: the placement heuristic follows the §4.3 first-match rule table for
every border-adjacency mask and aspect ratio, and in particular aspect ratio
2.0 touching all four borders yields South. Totality and determinism are
structural: `preferredSideBarOfBorders` is a total function into the
five-element type `SideBarLocation`. -/
theorem preferredSideBar_matches_spec :
    (∀ (b : LayoutBorders) (ar : ℚ),
      preferredSideBarOfBorders b ar = specPreferredLocation b ar) ∧
    preferredSideBar (some LayoutBorders.all) 2 = (SideBarLocation.South, false) := by
  constructor
  · intro b ar
    rcases b with ⟨n, e, w, s⟩
    rcases n <;> rcases e <;> rcases w <;> rcases s <;>
      (by_cases h : (1 : ℚ) < ar) <;>
      simp [preferredSideBarOfBorders, specPreferredLocation,
        LayoutBorders.all, LayoutBorders.allExcept, LayoutBorders.verticals,
        LayoutBorders.horizontals, LayoutBorders.single, LayoutBorders.union,
        LayoutBorders.inter, LayoutBorders.count, sideBarLocationForBorder,
        opposedSideBarLocationForBorder, h]
  · simp [preferredSideBar, preferredSideBarOfBorders, LayoutBorders.all]

/-- C6: when the panel's frame has no corresponding item in the layout tree,
`preferredSideBar` warns and returns `None`, independently of the aspect
ratio (border adjacency is unavailable and unused). -/
theorem preferredSideBar_noItem :
    ∀ aspectRatio : ℚ,
      preferredSideBar none aspectRatio = (SideBarLocation.None, true) := by
  intro ar
  rfl

/-- Shared helper: both dimensions of the geometry produced by
`resizeGeometry` stay within their [min, max] ranges, provided the ranges
are non-degenerate and the starting dimensions respect them. -/
theorem resizeGeometry_dim_bounds (cp : ℕ) (old : QRect) (g : ℤ × ℤ)
    (minW maxW minH maxH : ℤ) (hW : minW ≤ maxW) (hH : minH ≤ maxH)
    (hw1 : minW ≤ old.width) (hw2 : old.width ≤ maxW)
    (hh1 : minH ≤ old.height) (hh2 : old.height ≤ maxH) :
    (minW ≤ (resizeGeometry cp old g minW maxW minH maxH).width ∧
     (resizeGeometry cp old g minW maxW minH maxH).width ≤ maxW) ∧
    (minH ≤ (resizeGeometry cp old g minW maxW minH maxH).height ∧
     (resizeGeometry cp old g minW maxW minH maxH).height ≤ maxH) := by
  rcases old with ⟨a, b, c, d⟩
  simp only [QRect.width, QRect.height] at hw1 hw2 hh1 hh2
  unfold resizeGeometry
  simp only [qBound, QRect.left, QRect.right, QRect.top, QRect.bottom,
    QRect.setLeft, QRect.setRight, QRect.setTop, QRect.setBottom]
  split_ifs <;> simp only [QRect.width, QRect.height] <;> omega

/-- C2: for every drag-resize session (any pinned cursor position) and any
pointer position, the width and height of the geometry computed by
`mouseMoveEvent` stay within the target's [minimumWidth, maximumWidth] and
[minimumHeight, maximumHeight]. -/
theorem mouseMove_geometry_within_constraints (hs : HandlerState)
    (t : TargetState) (g : ℤ × ℤ)
    (hW : t.minimumWidth ≤ t.maximumWidth)
    (hH : t.minimumHeight ≤ t.maximumHeight)
    (hw1 : t.minimumWidth ≤ t.width) (hw2 : t.width ≤ t.maximumWidth)
    (hh1 : t.minimumHeight ≤ t.height) (hh2 : t.height ≤ t.maximumHeight) :
    t.minimumWidth ≤ (mouseMoveEventModel hs t g).2.1.width ∧
    (mouseMoveEventModel hs t g).2.1.width ≤ t.maximumWidth ∧
    t.minimumHeight ≤ (mouseMoveEventModel hs t g).2.1.height ∧
    (mouseMoveEventModel hs t g).2.1.height ≤ t.maximumHeight := by
  unfold mouseMoveEventModel
  by_cases hr : hs.mResizeWidget
  · have hb := resizeGeometry_dim_bounds hs.mCursorPos t.geometry g
      t.minimumWidth t.maximumWidth t.minimumHeight t.maximumHeight
      hW hH hw1 hw2 hh1 hh2
    simp only [hr, Bool.not_true, Bool.false_eq_true, if_false,
      TargetState.width, TargetState.height]
    exact ⟨hb.1.1, hb.1.2, hb.2.1, hb.2.2⟩
  · simp only [hr, Bool.not_false, if_true, TargetState.width,
      TargetState.height] at *
    exact ⟨hw1, hw2, hh1, hh2⟩

/-- Witness for C2: a left-edge drag far to the left on a 100×50 target
with width range [50, 120] and height range [30, 60]. -/
theorem mouseMove_geometry_within_constraints_witness :
    (50 : ℤ) ≤ (mouseMoveEventModel ⟨true, CursorPosition_Left, (0, 0)⟩
      ⟨⟨0, 0, 99, 49⟩, false, 50, 120, 30, 60⟩ (-100, 0)).2.1.width ∧
    (mouseMoveEventModel ⟨true, CursorPosition_Left, (0, 0)⟩
      ⟨⟨0, 0, 99, 49⟩, false, 50, 120, 30, 60⟩ (-100, 0)).2.1.width ≤ 120 ∧
    (30 : ℤ) ≤ (mouseMoveEventModel ⟨true, CursorPosition_Left, (0, 0)⟩
      ⟨⟨0, 0, 99, 49⟩, false, 50, 120, 30, 60⟩ (-100, 0)).2.1.height ∧
    (mouseMoveEventModel ⟨true, CursorPosition_Left, (0, 0)⟩
      ⟨⟨0, 0, 99, 49⟩, false, 50, 120, 30, 60⟩ (-100, 0)).2.1.height ≤ 60 :=
  mouseMove_geometry_within_constraints _ _ _ (by decide) (by decide)
    (by decide) (by decide) (by decide) (by decide)

/-- C5: `cursorPosition` is the bitmask OR of the independent horizontal
test (left margin, else right margin) and vertical test (top margin, else
bottom margin); its result is always one of the 4 edges, the 4 corners or
Undefined; and a press at a position classified Undefined starts no resize
session and changes nothing. -/
theorem cursorPosition_bitmask_classification :
    (∀ x y w h : ℤ,
      cursorPosition x y w h = (horizHit x w ||| vertHit y h) ∧
      cursorPosition x y w h ∈ validCursorPositions) ∧
    (∀ (hs : HandlerState) (t : TargetState) (objT : Bool) (e : MouseEvent),
      e.kind = MouseEventKind.press →
      cursorPositionOfTarget t e.globalPos = CursorPosition_Undefined →
      eventFilter hs t objT e = (hs, t, false)) := by
  constructor
  · intro x y w h
    constructor
    · simp only [cursorPosition, horizHit, vertHit]
      split_ifs <;> rfl
    · simp only [cursorPosition]
      split_ifs <;> decide
  · intro hs t objT e hk hcp
    rcases e with ⟨k, g, b1, b2⟩
    cases hk
    by_cases hm : t.maximized
    · simp [eventFilter, hm]
    · simp only at hcp
      simp [eventFilter, hm, hcp]

/-- Witness for C5: a press at the centre of a 100×50 window classifies as
Undefined and is ignored. -/
theorem cursorPosition_bitmask_classification_witness :
    eventFilter ⟨false, 0, (0, 0)⟩ ⟨⟨0, 0, 99, 49⟩, false, 0, 0, 0, 0⟩ true
      ⟨MouseEventKind.press, (50, 25), true, true⟩ =
    (⟨false, 0, (0, 0)⟩, ⟨⟨0, 0, 99, 49⟩, false, 0, 0, 0, 0⟩, false) :=
  cursorPosition_bitmask_classification.2 _ _ _ _ rfl (by decide)

/-- C9: any mouse press, move or release delivered while the target is
maximized is not consumed and leaves both the handler state and the target
(geometry included) unchanged. -/
theorem maximized_resize_noop (hs : HandlerState) (t : TargetState)
    (objT : Bool) (e : MouseEvent) (hmax : t.maximized = true) :
    eventFilter hs t objT e = (hs, t, false) := by
  rcases e with ⟨k, g, b1, b2⟩
  cases k <;> simp [eventFilter, hmax]

/-- Witness for C9: a move event on a maximized 100×50 target is ignored. -/
theorem maximized_resize_noop_witness :
    eventFilter ⟨true, 1, (0, 0)⟩ ⟨⟨0, 0, 99, 49⟩, true, 0, 0, 0, 0⟩ true
      ⟨MouseEventKind.move, (5, 5), true, true⟩ =
    (⟨true, 1, (0, 0)⟩, ⟨⟨0, 0, 99, 49⟩, true, 0, 0, 0, 0⟩, false) :=
  maximized_resize_noop _ _ _ _ rfl

/-! Helper lemmas: the overlay operations preserve the single-overlay
invariant. -/

theorem clearSideBarOverlay_inv (s : OverlayMWState) (h : OverlayInv s) :
    OverlayInv (clearSideBarOverlay s) := by
  obtain ⟨h1, h2⟩ := h
  unfold clearSideBarOverlay
  cases ho : s.overlayed with
  | none =>
    show OverlayInv s
    exact ⟨h1, h2⟩
  | some dw =>
    rw [ho] at h2
    simp only [Option.isSome_some, true_iff] at h2
    show OverlayInv
      { s with overlayed := none, liveOverlayFrames := s.liveOverlayFrames - 1 }
    refine ⟨show s.liveOverlayFrames - 1 ≤ 1 by omega, ?_⟩
    show (none : Option ℕ).isSome = true ↔ s.liveOverlayFrames - 1 = 1
    simp only [Option.isSome_none, Bool.false_eq_true, false_iff]
    omega

theorem clearSideBarOverlay_overlayed (s : OverlayMWState) :
    (clearSideBarOverlay s).overlayed = none := by
  unfold clearSideBarOverlay
  cases ho : s.overlayed with
  | none =>
    show s.overlayed = none
    exact ho
  | some dw => rfl

theorem overlayOnSideBar_inv (s : OverlayMWState) (dw : ℕ) (h : OverlayInv s) :
    OverlayInv (overlayOnSideBar s dw) := by
  unfold overlayOnSideBar
  cases hsb : sideBarForDockWidget s dw with
  | none => exact h
  | some loc =>
    by_cases hov : s.overlayed = some dw
    · show OverlayInv (if s.overlayed = some dw then s else _)
      rw [if_pos hov]
      exact h
    · show OverlayInv (if s.overlayed = some dw then s else _)
      rw [if_neg hov]
      obtain ⟨hc1, hc2⟩ := clearSideBarOverlay_inv s h
      rw [clearSideBarOverlay_overlayed] at hc2
      simp only [Option.isSome_none, Bool.false_eq_true, false_iff] at hc2
      refine ⟨?_, ?_⟩
      · show (clearSideBarOverlay s).liveOverlayFrames + 1 ≤ 1
        omega
      · show (some dw).isSome = true ↔
          (clearSideBarOverlay s).liveOverlayFrames + 1 = 1
        simp only [Option.isSome_some, true_iff]
        omega

theorem toggleOverlayOnSideBar_inv (s : OverlayMWState) (dw : ℕ)
    (h : OverlayInv s) : OverlayInv (toggleOverlayOnSideBar s dw) := by
  unfold toggleOverlayOnSideBar
  by_cases hov : s.overlayed = some dw
  · show OverlayInv (if s.overlayed = some dw then _ else _)
    rw [if_pos hov]
    exact clearSideBarOverlay_inv s h
  · show OverlayInv (if s.overlayed = some dw then _ else _)
    rw [if_neg hov]
    exact overlayOnSideBar_inv _ dw (clearSideBarOverlay_inv s h)

theorem restore_aux (s1 : OverlayMWState) (dw : ℕ) (h1 : OverlayInv s1) :
    OverlayInv (match sideBarForDockWidget s1 dw with
      | none => s1
      | some loc =>
        { s1 with sidebars := s1.sidebars.set loc ((s1.sidebars.get loc).erase dw) }) := by
  cases hsb : sideBarForDockWidget s1 dw with
  | none => exact h1
  | some loc => exact h1

theorem restoreFromSideBar_inv (s : OverlayMWState) (dw : ℕ)
    (h : OverlayInv s) : OverlayInv (restoreFromSideBar s dw) := by
  have h1 : OverlayInv (if s.overlayed = some dw then clearSideBarOverlay s else s) := by
    by_cases hov : s.overlayed = some dw
    · rw [if_pos hov]
      exact clearSideBarOverlay_inv s h
    · rw [if_neg hov]
      exact h
  unfold restoreFromSideBar
  exact restore_aux _ dw h1

/-- C3: for every sequence of `overlayOnSideBar`, `toggleOverlayOnSideBar`,
`clearSideBarOverlay` and `restoreFromSideBar` calls, the single-overlay
invariant is preserved: at most one transient overlay frame is ever alive,
and one is alive exactly when a panel occupies the overlayed slot (every
setter clears the previous overlay, destroying its frame, first). -/
theorem overlay_at_most_one (s : OverlayMWState) (ops : List OverlayOp)
    (h : OverlayInv s) : OverlayInv (applyOverlayOps s ops) := by
  induction ops generalizing s with
  | nil => exact h
  | cons op ops ih =>
    have hstep : OverlayInv (applyOverlayOp s op) := by
      cases op with
      | overlay dw => exact overlayOnSideBar_inv s dw h
      | toggle dw => exact toggleOverlayOnSideBar_inv s dw h
      | clear => exact clearSideBarOverlay_inv s h
      | restore dw => exact restoreFromSideBar_inv s dw h
    exact ih _ hstep

/-- Witness for C3: a run of overlay, toggle, restore and clear calls from
an overlay-free window with panels 1, 2 in the north sidebar and 3 in the
south one. -/
theorem overlay_at_most_one_witness :
    OverlayInv (applyOverlayOps ⟨⟨[1, 2], [], [], [3]⟩, none, 0⟩
      [OverlayOp.overlay 1, OverlayOp.toggle 2, OverlayOp.restore 2,
       OverlayOp.overlay 3, OverlayOp.clear]) :=
  overlay_at_most_one _ _ (by decide)

/-- C8: `overlayOnSideBar` on a panel contained in no sidebar warns and
no-ops: the whole state — overlayed slot, sidebar contents, live transient
frames — is unchanged. -/
theorem overlayOnSideBar_requires_sidebar (s : OverlayMWState) (dw : ℕ)
    (h : sideBarForDockWidget s dw = none) :
    overlayOnSideBar s dw = s := by
  unfold overlayOnSideBar
  rw [h]

/-- Witness for C8: overlaying panel 7, which is in no sidebar, changes
nothing. -/
theorem overlayOnSideBar_requires_sidebar_witness :
    overlayOnSideBar ⟨⟨[1], [2], [], []⟩, none, 0⟩ 7 =
      ⟨⟨[1], [2], [], []⟩, none, 0⟩ :=
  overlayOnSideBar_requires_sidebar _ _ (by decide)

/-- C7: `deserialize` with stored options different from the live window's
options reports the mismatch and returns `false` without touching the
state. -/
theorem deserialize_option_mismatch (registry : List String)
    (mw : SavedMainWindow) (s : MainWindowState)
    (h : mw.options ≠ s.options) :
    deserialize registry mw s = (s, false) := by
  unfold deserialize
  rw [if_pos h]

/-- Witness for C7: restoring a snapshot saved with options 1 into a window
configured with options 0 fails and leaves the window untouched. -/
theorem deserialize_option_mismatch_witness :
    deserialize [] ⟨1, ⟨0, 0, 9, 9⟩, true, "mw", 0, (0, 0), 0, [], []⟩
      ⟨0, ⟨0, 0, 9, 9⟩, true, "mw", 0, (0, 0), [], 0, ⟨[], [], [], []⟩⟩ =
    (⟨0, ⟨0, 0, 9, 9⟩, true, "mw", 0, (0, 0), [], 0, ⟨[], [], [], []⟩⟩, false) :=
  deserialize_option_mismatch _ _ _ (by decide)

/-! Helper lemmas for the serialization round trip. -/

theorem SideBars.set_set {α : Type} (sb : SideBars α) (loc : SideBarLocation)
    (a b : List α) : (sb.set loc a).set loc b = sb.set loc b := by
  cases loc <;> rfl

theorem SideBars.get_set {α : Type} (sb : SideBars α) (loc : SideBarLocation)
    (v : List α) (h : loc ≠ SideBarLocation.None) :
    (sb.set loc v).get loc = v := by
  cases loc <;> simp_all [SideBars.set, SideBars.get]

theorem SideBars.set_get_self {α : Type} (sb : SideBars α)
    (loc : SideBarLocation) : sb.set loc (sb.get loc) = sb := by
  cases loc <;> rfl

/-- The saved map that `serialize` builds reads back, per location, exactly
that location's sidebar contents (the empty list exactly when the key was
left out). -/
theorem mapValue_serialize (s : MainWindowState) (loc : SideBarLocation)
    (h : loc ≠ SideBarLocation.None) :
    mapValue (serialize s).dockWidgetsPerSideBar loc = s.sidebars.get loc := by
  rcases s with ⟨o, g, v, n, si, ss, af, ly, N, E, W, S⟩
  by_cases hN : N = [] <;> by_cases hE : E = [] <;> by_cases hW : W = [] <;>
    by_cases hS : S = [] <;> cases loc <;>
    simp_all [mapValue, serialize, SideBars.get]

/-- The per-sidebar restore loop of `deserialize` appends, in order, the
names the registry knows, onto the sidebar at `loc`. -/
theorem populate_foldl (registry : List String) (names : List String)
    (acc : MainWindowState) (loc : SideBarLocation)
    (h : loc ≠ SideBarLocation.None) :
    names.foldl (fun acc2 nm =>
      if nm ∈ registry then
        { acc2 with sidebars := acc2.sidebars.set loc (acc2.sidebars.get loc ++ [nm]) }
      else acc2) acc =
    { acc with sidebars :=
        (acc.sidebars.set loc
          (acc.sidebars.get loc ++ names.filter fun nm => decide (nm ∈ registry))) } := by
  induction names generalizing acc with
  | nil =>
    simp only [List.foldl_nil, List.filter_nil, List.append_nil,
      SideBars.set_get_self]
  | cons nm names ih =>
    simp only [List.foldl_cons, List.filter_cons]
    by_cases hmem : nm ∈ registry
    · rw [if_pos hmem, ih]
      simp only [hmem, decide_True, if_true]
      rw [SideBars.get_set _ _ _ h, SideBars.set_set]
      simp [List.append_assoc]
    · rw [if_neg hmem, ih]
      simp [hmem]

/-- C4: when every panel currently in a sidebar is registered, the round
trip `deserialize(serialize())` on the same window succeeds and reproduces
identical geometry, identical ordered sidebar contents at every location,
and identical affinities (the stored options equal the live ones by
construction). -/
theorem serialize_deserialize_roundtrip (registry : List String)
    (s : MainWindowState)
    (hreg : ∀ loc : SideBarLocation, ∀ nm ∈ s.sidebars.get loc, nm ∈ registry) :
    (deserialize registry (serialize s) s).2 = true ∧
    (deserialize registry (serialize s) s).1.geometry = s.geometry ∧
    (deserialize registry (serialize s) s).1.sidebars = s.sidebars ∧
    (deserialize registry (serialize s) s).1.affinities = s.affinities := by
  have hm : ∀ loc : SideBarLocation, loc ≠ SideBarLocation.None →
      mapValue (serialize s).dockWidgetsPerSideBar loc = s.sidebars.get loc :=
    fun loc h => mapValue_serialize s loc h
  have key : deserialize registry (serialize s) s = (s, true) := by
    obtain ⟨o, g, v, n, si, ss, af, ly, sb⟩ := s
    obtain ⟨N, E, W, S⟩ := sb
    have fN : N.filter (fun nm => decide (nm ∈ registry)) = N :=
      List.filter_eq_self.mpr fun a ha => by
        simpa using hreg SideBarLocation.North a ha
    have fE : E.filter (fun nm => decide (nm ∈ registry)) = E :=
      List.filter_eq_self.mpr fun a ha => by
        simpa using hreg SideBarLocation.East a ha
    have fW : W.filter (fun nm => decide (nm ∈ registry)) = W :=
      List.filter_eq_self.mpr fun a ha => by
        simpa using hreg SideBarLocation.West a ha
    have fS : S.filter (fun nm => decide (nm ∈ registry)) = S :=
      List.filter_eq_self.mpr fun a ha => by
        simpa using hreg SideBarLocation.South a ha
    unfold deserialize
    rw [if_neg (by simp [serialize])]
    rw [if_neg (by simp [serialize])]
    simp only [List.foldl_cons, List.foldl_nil]
    rw [hm SideBarLocation.North (by decide), hm SideBarLocation.East (by decide),
      hm SideBarLocation.West (by decide), hm SideBarLocation.South (by decide)]
    rw [populate_foldl registry _ _ SideBarLocation.North (by decide),
      populate_foldl registry _ _ SideBarLocation.East (by decide),
      populate_foldl registry _ _ SideBarLocation.West (by decide),
      populate_foldl registry _ _ SideBarLocation.South (by decide)]
    simp [serialize, dropAreaSerialize, dropAreaDeserialize, clearSideBars,
      SideBars.set, SideBars.get, fN, fE, fW, fS]
  rw [key]
  exact ⟨rfl, rfl, rfl, rfl⟩

/-- Witness for C4: a window with panels "a" (north) and "b", "c" (south),
all registered, round-trips to the identical sidebar contents, geometry and
affinities. -/
theorem serialize_deserialize_roundtrip_witness :
    (deserialize ["a", "b", "c"]
      (serialize ⟨3, ⟨0, 0, 9, 9⟩, true, "mw", 0, (0, 0), ["aff"], 5,
        ⟨["a"], [], [], ["b", "c"]⟩⟩)
      ⟨3, ⟨0, 0, 9, 9⟩, true, "mw", 0, (0, 0), ["aff"], 5,
        ⟨["a"], [], [], ["b", "c"]⟩⟩).2 = true ∧
    (deserialize ["a", "b", "c"]
      (serialize ⟨3, ⟨0, 0, 9, 9⟩, true, "mw", 0, (0, 0), ["aff"], 5,
        ⟨["a"], [], [], ["b", "c"]⟩⟩)
      ⟨3, ⟨0, 0, 9, 9⟩, true, "mw", 0, (0, 0), ["aff"], 5,
        ⟨["a"], [], [], ["b", "c"]⟩⟩).1.geometry = ⟨0, 0, 9, 9⟩ ∧
    (deserialize ["a", "b", "c"]
      (serialize ⟨3, ⟨0, 0, 9, 9⟩, true, "mw", 0, (0, 0), ["aff"], 5,
        ⟨["a"], [], [], ["b", "c"]⟩⟩)
      ⟨3, ⟨0, 0, 9, 9⟩, true, "mw", 0, (0, 0), ["aff"], 5,
        ⟨["a"], [], [], ["b", "c"]⟩⟩).1.sidebars = ⟨["a"], [], [], ["b", "c"]⟩ ∧
    (deserialize ["a", "b", "c"]
      (serialize ⟨3, ⟨0, 0, 9, 9⟩, true, "mw", 0, (0, 0), ["aff"], 5,
        ⟨["a"], [], [], ["b", "c"]⟩⟩)
      ⟨3, ⟨0, 0, 9, 9⟩, true, "mw", 0, (0, 0), ["aff"], 5,
        ⟨["a"], [], [], ["b", "c"]⟩⟩).1.affinities = ["aff"] :=
  serialize_deserialize_roundtrip ["a", "b", "c"] _ (by decide)

/-- C10: `GuestWidget::minSize` is componentwise at least
`Item::hardcodedMinimumSize` (hence strictly positive on both axes even
for widgets declaring no minimum), and per axis it is the maximum of the
floor with the explicit minimum dimension when that is positive, else with
the minimum size hint. -/
theorem guestWidget_minSize_floor :
    ∀ wd : WidgetSizeInfo,
      (hardcodedMinimumSize.w ≤ (GuestWidget.minSize wd).w ∧
       hardcodedMinimumSize.h ≤ (GuestWidget.minSize wd).h) ∧
      (0 < (GuestWidget.minSize wd).w ∧ 0 < (GuestWidget.minSize wd).h) ∧
      ((GuestWidget.minSize wd).w =
        max (if wd.minimumWidth > 0 then wd.minimumWidth
             else wd.minimumSizeHintWidth) hardcodedMinimumSize.w ∧
       (GuestWidget.minSize wd).h =
        max (if wd.minimumHeight > 0 then wd.minimumHeight
             else wd.minimumSizeHintHeight) hardcodedMinimumSize.h) := by
  intro wd
  simp only [GuestWidget.minSize, widgetMinSize, QSizeT.expandedTo,
    hardcodedMinimumSize]
  refine ⟨⟨?_, ?_⟩, ⟨?_, ?_⟩, ?_, ?_⟩ <;>
    first
    | trivial
    | (split_ifs <;> omega)

end KDDW
